import Mathlib

/-!
Shallow embedding of the estafette-extension-docker CI step (main.go).

The program drives an external container engine by issuing shell commands
(mkdir, cp, docker tag/login/push/pull/build).  We model every issued command
as a `Cmd` value (command name plus argument list) and every planner as a
function producing the ordered list of commands the Go code would execute.
Fatal configuration errors (log.Fatal before any command) are modelled with
`Except`: an `Except.error` run issues no command at all.
-/

namespace EstafetteDocker

/-- Credential record, from estafette-ci-contracts: a repository together with
a username and password, parsed from the repository-credentials JSON. -/
structure ContainerRepositoryCredentialConfig where
  repository : String
  username : String
  password : String
  deriving DecidableEq

/-- One external command invocation: the command name and its arguments,
exactly the pair handed to exec.Command in the Go code. -/
structure Cmd where
  name : String
  args : List String
  deriving DecidableEq

/-- Character class of the regular expression in tidyBuildVersionAsTag:
ASCII letters, digits, underscore, period and dash are legal tag characters. -/
def isLegalTagChar (c : Char) : Bool :=
  (('a') ≤ c && c ≤ ('z')) || (('A') ≤ c && c ≤ ('Z')) ||
  (('0') ≤ c && c ≤ ('9')) || c == ('_') || c == ('.') || c == ('-')

/-- Operational reading of regexp `[^a-zA-Z0-9_.\-]+` replaced by `-`:
scan the characters left to right; a legal character is copied, and the first
character of a run of illegal characters yields one dash while the rest of
that run (tracked by the boolean state) is dropped. -/
def tidyAux : Bool → List Char → List Char
  | _, [] => []
  | inRun, c :: rest =>
    if isLegalTagChar c then c :: tidyAux false rest
    else if inRun then tidyAux true rest
    else ('-') :: tidyAux true rest

/-- Embedding of tidyBuildVersionAsTag from main.go: replace every maximal
run of characters outside the legal tag class with a single dash. -/
def tidyBuildVersionAsTag (buildVersion : String) : String :=
  String.mk (tidyAux false buildVersion.data)

/-- Modelled from the spec wording of the TagSanitizer rule, for comparison
with the source embedding: replace each maximal run of characters other than
ASCII letters, digits, underscore, period, or dash with a single dash, and
pass every legal character through unchanged. -/
def sanitizeSpec (l : List Char) : List Char :=
  match l with
  | [] => []
  | c :: rest =>
    if isLegalTagChar c then c :: sanitizeSpec rest
    else ('-') :: sanitizeSpec (rest.dropWhile (fun x => !isLegalTagChar x))
  termination_by l.length
  decreasing_by
  · simp only [List.length_cons]
    exact Nat.lt_succ_self _
  · simp only [List.length_cons]
    exact Nat.lt_succ_of_le ((List.dropWhile_sublist _).length_le)

/-- String version of the spec-worded sanitizer. -/
def sanitizeSpecStr (s : String) : String :=
  String.mk (sanitizeSpec s.data)

/-- Embedding of getCredentialsForContainer from main.go: walk the credential
list in order; the repository portion of the image reference is the join of
all slash-separated segments except the last, and the first credential whose
repository field equals it exactly is returned. -/
def getCredentialsForContainer
    (credentials : List ContainerRepositoryCredentialConfig)
    (containerImage : String) : Option ContainerRepositoryCredentialConfig :=
  match credentials with
  | [] => none
  | credential :: rest =>
    let containerImageSlice := containerImage.splitOn ("/")
    let containerRepo := String.intercalate ("/") containerImageSlice.dropLast
    if containerRepo == credential.repository then some credential
    else getCredentialsForContainer rest containerImage

/-- Embedding of loginIfRequired from main.go.  The result is the argument
list of the docker login command it runs, or none when no credential matches
and the function is a no-op. -/
def loginIfRequired
    (credentials : List ContainerRepositoryCredentialConfig)
    (containerImage : String) : Option (List String) :=
  match getCredentialsForContainer credentials containerImage with
  | none => none
  | some credential =>
    let loginArgs := [("login"), ("--username"), credential.username,
                      ("--password"), credential.password]
    let repositorySlice := credential.repository.splitOn ("/")
    if repositorySlice.length > 1 then
      some (loginArgs ++ [repositorySlice.headD ("")])
    else
      some loginArgs

/-- Commands issued by a loginIfRequired call: empty when it is a no-op,
otherwise the single docker login invocation. -/
def loginCmds
    (credentials : List ContainerRepositoryCredentialConfig)
    (containerImage : String) : List Cmd :=
  match loginIfRequired credentials containerImage with
  | none => []
  | some a => [⟨("docker"), a⟩]

/-- Image reference rendering fmt.Sprintf of repository, container and tag. -/
def containerPath (r container tag : String) : String :=
  r ++ ("/") ++ container ++ (":") ++ tag

/-- Embedding of the contains helper from main.go. -/
def contains (values : List String) (value : String) : Bool :=
  match values with
  | [] => false
  | v :: rest => if v == value then true else contains rest value

/-- Embedding of the argument accumulation of the build case of main.go:
starting from the build verb, the two nested loops append one tag flag per
repository and per additional tag, then one build-arg flag per requested
build argument, then the file flag and the build path. -/
def buildDockerArgs (repositoriesSlice tagsSlice : List String)
    (container buildTag path dockerfile : String)
    (argsSlice : List String) (env : String → String) : List String :=
  let args := [("build")]
  let args := repositoriesSlice.foldl (fun args r =>
    let args := args ++ [("--tag"), containerPath r container buildTag]
    tagsSlice.foldl (fun args t =>
      args ++ [("--tag"), containerPath r container t]) args) args
  let args := argsSlice.foldl (fun args a =>
    args ++ [("--build-arg"), a ++ ("=") ++ env a]) args
  args ++ [("--file"), path ++ ("/") ++ dockerfile, path]

/-- Embedding of the build case of main.go: mkdir for the build path, copy
each staged file (with the dockerfile implicitly added when the path is
non-default and it is not already listed), login for the first repository
reference if a credential matches, then the single docker build command. -/
def buildPlan (credentials : List ContainerRepositoryCredentialConfig)
    (repositoriesSlice tagsSlice : List String)
    (container buildTag path dockerfile : String)
    (copySlice argsSlice : List String) (env : String → String) : List Cmd :=
  let copySlice :=
    if path != (".") && !(contains copySlice dockerfile) then
      copySlice ++ [dockerfile]
    else copySlice
  [⟨("mkdir"), [("-p"), path]⟩]
  ++ copySlice.map (fun c => ⟨("cp"), [("-r"), c, path]⟩)
  ++ loginCmds credentials
       (containerPath (repositoriesSlice.headD ("")) container buildTag)
  ++ [⟨("docker"), buildDockerArgs repositoriesSlice tagsSlice container
        buildTag path dockerfile argsSlice env⟩]

/-- Embedding of the inner additional-tags loop shared by the push and tag
cases: for each additional tag, tag the source reference as the target,
login if required, and push the target. -/
def tagsFanOut (credentials : List ContainerRepositoryCredentialConfig)
    (source container : String) (r : String) :
    List String → List Cmd
  | [] => []
  | t :: rest =>
    let target := containerPath r container t
    [⟨("docker"), [("tag"), source, target]⟩]
    ++ loginCmds credentials target
    ++ [⟨("docker"), [("push"), target]⟩]
    ++ tagsFanOut credentials source container r rest

/-- Embedding of the repository loop of the push case of main.go, carrying
the range index: for index over zero first tag the source as the target
default reference, then always login-if-required and push the default
reference, then fan out over the additional tags. -/
def pushLoop (credentials : List ContainerRepositoryCredentialConfig)
    (source container buildTag : String) (tagsSlice : List String) :
    Nat → List String → List Cmd
  | _, [] => []
  | i, r :: rest =>
    let target := containerPath r container buildTag
    (if i > 0 then [⟨("docker"), [("tag"), source, target]⟩] else [])
    ++ loginCmds credentials target
    ++ [⟨("docker"), [("push"), target]⟩]
    ++ tagsFanOut credentials source container r tagsSlice
    ++ pushLoop credentials source container buildTag tagsSlice (i + 1) rest

/-- Embedding of the push case of main.go. -/
def pushPlan (credentials : List ContainerRepositoryCredentialConfig)
    (repositoriesSlice tagsSlice : List String)
    (container buildTag : String) : List Cmd :=
  let source := containerPath (repositoriesSlice.headD ("")) container buildTag
  pushLoop credentials source container buildTag tagsSlice 0 repositoriesSlice

/-- Embedding of the repository loop of the tag case of main.go: the whole
default-tag step (tag, login, push) is guarded by the index being over zero,
and the additional-tags fan-out runs for every repository. -/
def tagLoop (credentials : List ContainerRepositoryCredentialConfig)
    (source container buildTag : String) (tagsSlice : List String) :
    Nat → List String → List Cmd
  | _, [] => []
  | i, r :: rest =>
    let target := containerPath r container buildTag
    (if i > 0 then
      [⟨("docker"), [("tag"), source, target]⟩]
      ++ loginCmds credentials target
      ++ [⟨("docker"), [("push"), target]⟩]
     else [])
    ++ tagsFanOut credentials source container r tagsSlice
    ++ tagLoop credentials source container buildTag tagsSlice (i + 1) rest

/-- Embedding of the tag case of main.go: login for the source reference if
required, pull the source reference, then run the repository loop. -/
def tagPlan (credentials : List ContainerRepositoryCredentialConfig)
    (repositoriesSlice tagsSlice : List String)
    (container buildTag : String) : List Cmd :=
  let source := containerPath (repositoriesSlice.headD ("")) container buildTag
  loginCmds credentials source
  ++ [⟨("docker"), [("pull"), source]⟩]
  ++ tagLoop credentials source container buildTag tagsSlice 0 repositoriesSlice

/-- Credential list obtained from the repository-credentials environment
variable: the Go code leaves the slice nil when the variable is absent or
json.Unmarshal fails (its error is ignored), so an unparsed input is an
empty credential list.  The Option argument is the outcome of the JSON
parse, none standing for absent or unparsable input. -/
def credentialsFromJSON
    (parsed : Option (List ContainerRepositoryCredentialConfig)) :
    List ContainerRepositoryCredentialConfig :=
  parsed.getD []

/-- Fatal message of validateRepositories in main.go. -/
def repositoriesFatalMsg : String :=
  ("Set repositories to list at least one repository")

/-- Fatal message of the default switch case in main.go. -/
def unknownActionFatalMsg : String :=
  ("Set command on this step to build, push or tag")

/-- Embedding of main from main.go after flag parsing: validate that the
repositories string is non-empty (fatal before any command otherwise), split
the comma-separated lists, derive the default tag from the build version,
and dispatch on the action; an unrecognized action is fatal with no command
issued.  The error branch of the Except result issues no command. -/
def mainPlan
    (parsedCredentials : Option (List ContainerRepositoryCredentialConfig))
    (action repositories container tags path dockerfile copyArg argsArg :
      String)
    (env : String → String) (buildVersion : String) : Except String (List Cmd) :=
  let credentials := credentialsFromJSON parsedCredentials
  if repositories == ("") then Except.error repositoriesFatalMsg
  else
    let repositoriesSlice :=
      if repositories == ("") then [] else repositories.splitOn (",")
    let tagsSlice := if tags == ("") then [] else tags.splitOn (",")
    let copySlice := if copyArg == ("") then [] else copyArg.splitOn (",")
    let argsSlice := if argsArg == ("") then [] else argsArg.splitOn (",")
    let estafetteBuildVersionAsTag := tidyBuildVersionAsTag buildVersion
    match action with
    | ("build") => Except.ok (buildPlan credentials repositoriesSlice tagsSlice
        container estafetteBuildVersionAsTag path dockerfile copySlice
        argsSlice env)
    | ("push") => Except.ok (pushPlan credentials repositoriesSlice tagsSlice
        container estafetteBuildVersionAsTag)
    | ("tag") => Except.ok (tagPlan credentials repositoriesSlice tagsSlice
        container estafetteBuildVersionAsTag)
    | _ => Except.error unknownActionFatalMsg

/-! Lemmas about the sanitizer. -/

/-- Inside an illegal run the scanner behaves like restarting after the run. -/
theorem tidyAux_true_dropWhile (l : List Char) :
    tidyAux true l = tidyAux false (l.dropWhile (fun x => !isLegalTagChar x)) := by
  induction l with
  | nil => rfl
  | cons c rest ih =>
    by_cases h : isLegalTagChar c
    · simp [tidyAux, h, List.dropWhile_cons]
    · simp [tidyAux, h, List.dropWhile_cons, ih]

/-- The scanner agrees with the maximal-run description of the sanitizer. -/
theorem tidyAux_eq_sanitizeSpec : ∀ l : List Char, tidyAux false l = sanitizeSpec l
  | [] => by simp [tidyAux, sanitizeSpec]
  | c :: rest => by
    by_cases h : isLegalTagChar c
    · rw [sanitizeSpec]
      simp only [h, if_true, tidyAux]
      rw [tidyAux_eq_sanitizeSpec rest]
    · rw [sanitizeSpec]
      simp only [h, if_false, tidyAux, Bool.false_eq_true]
      rw [tidyAux_true_dropWhile, tidyAux_eq_sanitizeSpec]
  termination_by l => l.length
  decreasing_by
  · simp only [List.length_cons]
    exact Nat.lt_succ_self _
  · simp only [List.length_cons]
    exact Nat.lt_succ_of_le ((List.dropWhile_sublist _).length_le)

/-- Every character the sanitizer emits is legal (a dash is legal itself). -/
theorem isLegalTagChar_of_mem_tidyAux :
    ∀ (l : List Char) (b : Bool), ∀ c ∈ tidyAux b l, isLegalTagChar c = true := by
  intro l
  induction l with
  | nil => intro b c hc; simp [tidyAux] at hc
  | cons d rest ih =>
    intro b c hc
    by_cases h : isLegalTagChar d
    · simp only [tidyAux, h, if_true, List.mem_cons] at hc
      rcases hc with hc | hc
      · exact hc ▸ h
      · exact ih false c hc
    · cases b with
      | true =>
        simp only [tidyAux, h, Bool.false_eq_true, if_false] at hc
        exact ih true c hc
      | false =>
        simp only [tidyAux, h, Bool.false_eq_true, if_false, List.mem_cons] at hc
        rcases hc with hc | hc
        · subst hc; decide
        · exact ih true c hc

/-- A list of legal characters passes through the sanitizer unchanged. -/
theorem tidyAux_id_of_legal :
    ∀ (l : List Char) (b : Bool), (∀ c ∈ l, isLegalTagChar c = true) → tidyAux b l = l := by
  intro l
  induction l with
  | nil => intro b _; rfl
  | cons d rest ih =>
    intro b hall
    have hd : isLegalTagChar d = true := hall d (List.mem_cons_self _ _)
    simp only [tidyAux, hd, if_true]
    rw [ih false (fun c hc => hall c (List.mem_cons_of_mem _ hc))]

/-- C2: tidyBuildVersionAsTag replaces each maximal run of characters outside
ASCII letters, digits, underscore, period and dash with a single dash and
passes every other character through unchanged (it agrees with the
maximal-run sanitizer everywhere); it is total, and on the two examples it
leaves a legal version unchanged and collapses an illegal run to one dash. -/
theorem tidy_replaces_maximal_runs :
    (∀ s : String, tidyBuildVersionAsTag s = sanitizeSpecStr s) ∧
    tidyBuildVersionAsTag ("1.2.3-rc.1") = ("1.2.3-rc.1") ∧
    tidyBuildVersionAsTag ("feature/foo bar") = ("feature-foo-bar") :=
  ⟨fun s => congrArg String.mk (tidyAux_eq_sanitizeSpec s.data),
   by decide, by decide⟩

/-- C3: the tag sanitizer is idempotent. -/
theorem tidy_idempotent (s : String) :
    tidyBuildVersionAsTag (tidyBuildVersionAsTag s) = tidyBuildVersionAsTag s :=
  congrArg String.mk
    (tidyAux_id_of_legal _ false (isLegalTagChar_of_mem_tidyAux s.data false))

/-! Credential resolution and login. -/

/-- C4: the credential resolver joins all slash-separated segments of the
image reference except the last to obtain its repository portion, scans the
credential list in order and returns the first record whose repository field
equals that string exactly (List.find? semantics: deterministic,
first-match-wins on duplicates, none when nothing matches), and it returns
none on the empty credential set. -/
theorem getCredentials_first_match :
    (∀ (credentials : List ContainerRepositoryCredentialConfig) (img : String),
      getCredentialsForContainer credentials img =
        credentials.find? (fun c => c.repository ==
          String.intercalate ("/") ((img.splitOn ("/")).dropLast))) ∧
    (∀ img : String, getCredentialsForContainer [] img = none) := by
  constructor
  · intro credentials img
    induction credentials with
    | nil => rfl
    | cons credential rest ih =>
      simp only [getCredentialsForContainer, List.find?]
      by_cases h : String.intercalate ("/") ((img.splitOn ("/")).dropLast)
          = credential.repository
      · simp [h]
      · have h1 : (String.intercalate ("/") ((img.splitOn ("/")).dropLast)
            == credential.repository) = false := by
          simp [h]
        have h2 : (credential.repository
            == String.intercalate ("/") ((img.splitOn ("/")).dropLast)) = false := by
          simp only [beq_eq_false_iff_ne, ne_eq]
          intro e
          exact h e.symm
        rw [h1, h2]
        simpa using ih
  · intro img; rfl

/-- C5: loginIfRequired is a no-op (none) exactly when no credential matches,
and otherwise issues a login command carrying the matched record's username
and password, with the registry host (the first slash-delimited segment of
the credential's repository field) appended as an extra argument if and only
if that repository string has more than one slash-separated segment. -/
theorem loginIfRequired_matches_resolver
    (credentials : List ContainerRepositoryCredentialConfig) (img : String) :
    loginIfRequired credentials img =
      (getCredentialsForContainer credentials img).map (fun credential =>
        [("login"), ("--username"), credential.username,
         ("--password"), credential.password]
        ++ (if (credential.repository.splitOn ("/")).length > 1 then
              [(credential.repository.splitOn ("/")).headD ("")]
            else [])) := by
  unfold loginIfRequired
  cases hc : getCredentialsForContainer credentials img with
  | none => rfl
  | some credential =>
    simp only [Option.map_some]
    by_cases h : (credential.repository.splitOn ("/")).length > 1
    · simp [h]
    · simp [h]

/-! Push planning. -/

/-- C1 counterexample: for repositories a and b, additional tag dev,
container app and default tag 1.0 (and no credentials, so that no login is
issued), the push planner does not produce the operation sequence the claim
lists: the claim puts repository b first and omits the local tag operation
that repository a receives for the additional tag. -/
theorem push_plan_claimed_sequence_false :
    pushPlan [] [("a"), ("b")] [("dev")] ("app") ("1.0") ≠
      [⟨("docker"), [("tag"), ("a/app:1.0"), ("b/app:1.0")]⟩,
       ⟨("docker"), [("push"), ("b/app:1.0")]⟩,
       ⟨("docker"), [("tag"), ("a/app:1.0"), ("b/app:dev")]⟩,
       ⟨("docker"), [("push"), ("b/app:dev")]⟩,
       ⟨("docker"), [("push"), ("a/app:1.0")]⟩,
       ⟨("docker"), [("push"), ("a/app:dev")]⟩] := by
  decide

/-- C1 amended: for repositories a and b, additional tag dev, container app
and default tag 1.0 the push planner produces exactly, in order:
push(a/app:1.0), tag(a/app:1.0 to a/app:dev), push(a/app:dev),
tag(a/app:1.0 to b/app:1.0), push(b/app:1.0),
tag(a/app:1.0 to b/app:dev), push(b/app:dev).  Repository a (index 0) is
pushed under the default tag with no preceding tag operation, but its
additional tag does get a local tag operation, and a is handled before b. -/
theorem push_plan_actual_sequence :
    pushPlan [] [("a"), ("b")] [("dev")] ("app") ("1.0") =
      [⟨("docker"), [("push"), ("a/app:1.0")]⟩,
       ⟨("docker"), [("tag"), ("a/app:1.0"), ("a/app:dev")]⟩,
       ⟨("docker"), [("push"), ("a/app:dev")]⟩,
       ⟨("docker"), [("tag"), ("a/app:1.0"), ("b/app:1.0")]⟩,
       ⟨("docker"), [("push"), ("b/app:1.0")]⟩,
       ⟨("docker"), [("tag"), ("a/app:1.0"), ("b/app:dev")]⟩,
       ⟨("docker"), [("push"), ("b/app:dev")]⟩] := by
  decide

/-! Structure of the accumulated build arguments. -/

/-- A fold that only appends is the initial list followed by the joined map. -/
theorem foldl_append_join {α β : Type} (g : α → List β) :
    ∀ (l : List α) (init : List β),
    l.foldl (fun acc x => acc ++ g x) init = init ++ (l.map g).flatten := by
  intro l
  induction l with
  | nil => intro init; simp
  | cons x xs ih => intro init; simp [List.foldl, ih, List.append_assoc]

/-- The nested repository and tag loops of the build case append one pair of
tag arguments per repository and per tag, default tag first. -/
theorem buildTagFold (tagsSlice : List String) (container buildTag : String) :
    ∀ (repos : List String) (init : List String),
    repos.foldl (fun args r =>
      tagsSlice.foldl
        (fun args t => args ++ [("--tag"), containerPath r container t])
        (args ++ [("--tag"), containerPath r container buildTag])) init
    = init ++ (repos.map (fun r =>
        ((buildTag :: tagsSlice).map
          (fun t => [("--tag"), containerPath r container t])).flatten)).flatten := by
  intro repos
  induction repos with
  | nil => intro init; simp
  | cons r rs ih =>
    intro init
    simp only [List.foldl, List.map_cons, List.flatten_cons]
    rw [ih, foldl_append_join]
    simp [List.append_assoc]

/-- Closed form of the docker build argument list. -/
theorem buildDockerArgs_eq (repositoriesSlice tagsSlice : List String)
    (container buildTag path dockerfile : String)
    (argsSlice : List String) (env : String → String) :
    buildDockerArgs repositoriesSlice tagsSlice container buildTag path
        dockerfile argsSlice env =
      ("build") :: (
        (repositoriesSlice.map (fun r =>
          ((buildTag :: tagsSlice).map
            (fun t => [("--tag"), containerPath r container t])).flatten)).flatten
        ++ (argsSlice.map
            (fun a => [("--build-arg"), a ++ ("=") ++ env a])).flatten
        ++ [("--file"), path ++ ("/") ++ dockerfile, path]) := by
  simp only [buildDockerArgs]
  rw [buildTagFold, foldl_append_join]
  simp [List.append_assoc]

/-- C9: the single docker build invocation carries exactly one tag argument
pair per element of the cross product of the repositories with the default
sanitized tag followed by the explicit tags, in list order, plus one
build-argument pair per requested build argument whose value is read from
the environment at invocation time, before the file argument and the build
path. -/
theorem build_args_cross_product (repositoriesSlice tagsSlice : List String)
    (container buildTag path dockerfile : String)
    (argsSlice : List String) (env : String → String) :
    buildDockerArgs repositoriesSlice tagsSlice container buildTag path
        dockerfile argsSlice env =
      ("build") :: (
        (repositoriesSlice.map (fun r =>
          ((buildTag :: tagsSlice).map
            (fun t => [("--tag"), containerPath r container t])).flatten)).flatten
        ++ (argsSlice.map
            (fun a => [("--build-arg"), a ++ ("=") ++ env a])).flatten
        ++ [("--file"), path ++ ("/") ++ dockerfile, path]) :=
  buildDockerArgs_eq repositoriesSlice tagsSlice container buildTag path
    dockerfile argsSlice env

/-! Structure of the push and tag fan-outs. -/

/-- Closed form of the additional-tags loop. -/
theorem tagsFanOut_eq (credentials : List ContainerRepositoryCredentialConfig)
    (source container r : String) :
    ∀ tagsSlice : List String,
    tagsFanOut credentials source container r tagsSlice =
      (tagsSlice.map (fun t =>
        [⟨("docker"), [("tag"), source, containerPath r container t]⟩]
        ++ loginCmds credentials (containerPath r container t)
        ++ [⟨("docker"), [("push"), containerPath r container t]⟩])).flatten := by
  intro tagsSlice
  induction tagsSlice with
  | nil => rfl
  | cons t rest ih =>
    simp only [tagsFanOut, List.map_cons, List.flatten_cons, List.append_assoc]
    rw [ih]
    simp [List.append_assoc]

/-- Closed form of the repository loop of the tag case, for any start index. -/
theorem tagLoop_eq (credentials : List ContainerRepositoryCredentialConfig)
    (source container buildTag : String) (tagsSlice : List String) :
    ∀ (repos : List String) (n : Nat),
    tagLoop credentials source container buildTag tagsSlice n repos =
      ((repos.enumFrom n).map (fun p =>
        (if p.1 > 0 then
          [⟨("docker"), [("tag"), source, containerPath p.2 container buildTag]⟩]
          ++ loginCmds credentials (containerPath p.2 container buildTag)
          ++ [⟨("docker"), [("push"), containerPath p.2 container buildTag]⟩]
         else [])
        ++ (tagsSlice.map (fun t =>
            [⟨("docker"), [("tag"), source, containerPath p.2 container t]⟩]
            ++ loginCmds credentials (containerPath p.2 container t)
            ++ [⟨("docker"), [("push"), containerPath p.2 container t]⟩])).flatten)).flatten := by
  intro repos
  induction repos with
  | nil => intro n; rfl
  | cons r rest ih =>
    intro n
    simp only [tagLoop, List.enumFrom_cons, List.map_cons, List.flatten_cons]
    rw [ih, tagsFanOut_eq]

/-- Commands of a loginIfRequired call are either nothing or one docker
invocation whose first argument is the login verb. -/
theorem loginCmds_shape (credentials : List ContainerRepositoryCredentialConfig)
    (img : String) :
    loginCmds credentials img = [] ∨
    ∃ rest : List String,
      loginCmds credentials img = [⟨("docker"), ("login") :: rest⟩] := by
  unfold loginCmds loginIfRequired
  cases hc : getCredentialsForContainer credentials img with
  | none => exact Or.inl rfl
  | some credential =>
    by_cases h : (credential.repository.splitOn ("/")).length > 1
    · refine Or.inr ⟨[("--username"), credential.username, ("--password"),
        credential.password, (credential.repository.splitOn ("/")).headD ("")], ?_⟩
      simp [h]
    · refine Or.inr ⟨[("--username"), credential.username, ("--password"),
        credential.password], ?_⟩
      simp [h]

/-- Every command a loginIfRequired call issues is a docker login. -/
theorem loginCmds_all_login
    (credentials : List ContainerRepositoryCredentialConfig) (img : String) :
    (loginCmds credentials img).all
      (fun cmd => cmd.name == ("docker") && cmd.args.headD ("") == ("login"))
      = true := by
  rcases loginCmds_shape credentials img with h | ⟨rest, h⟩ <;> simp [h]

/-- A loginIfRequired call never issues a tag or a push command. -/
theorem loginCmds_no_tag_push
    (credentials : List ContainerRepositoryCredentialConfig) (img : String) :
    (loginCmds credentials img).all
      (fun cmd => cmd.args.headD ("") != ("tag")
        && cmd.args.headD ("") != ("push")) = true := by
  rcases loginCmds_shape credentials img with h | ⟨rest, h⟩ <;> simp [h]

/-- C6: the tag planner first logs in for the source reference if a
credential matches (the prefix holds docker login commands only, so no tag
or push precedes the pull), then pulls the source image built from the first
repository, the container name and the sanitized default tag, and only then
runs the fan-out, in which the default-tag tag-and-push block is guarded by
the repository index being greater than zero. -/
theorem tag_plan_pull_before_fanout
    (credentials : List ContainerRepositoryCredentialConfig)
    (repositoriesSlice tagsSlice : List String) (container buildTag : String) :
    tagPlan credentials repositoriesSlice tagsSlice container buildTag =
      loginCmds credentials
        (containerPath (repositoriesSlice.headD ("")) container buildTag)
      ++ [⟨("docker"), [("pull"),
            containerPath (repositoriesSlice.headD ("")) container buildTag]⟩]
      ++ ((repositoriesSlice.enum).map (fun p =>
          (if p.1 > 0 then
            [⟨("docker"), [("tag"),
                containerPath (repositoriesSlice.headD ("")) container buildTag,
                containerPath p.2 container buildTag]⟩]
            ++ loginCmds credentials (containerPath p.2 container buildTag)
            ++ [⟨("docker"), [("push"), containerPath p.2 container buildTag]⟩]
           else [])
          ++ (tagsSlice.map (fun t =>
              [⟨("docker"), [("tag"),
                  containerPath (repositoriesSlice.headD ("")) container buildTag,
                  containerPath p.2 container t]⟩]
              ++ loginCmds credentials (containerPath p.2 container t)
              ++ [⟨("docker"), [("push"),
                    containerPath p.2 container t]⟩])).flatten)).flatten
    ∧ (loginCmds credentials
        (containerPath (repositoriesSlice.headD ("")) container buildTag)).all
        (fun cmd => cmd.name == ("docker") && cmd.args.headD ("") == ("login"))
        = true := by
  constructor
  · simp only [tagPlan]
    rw [tagLoop_eq]
    rfl
  · exact loginCmds_all_login credentials _

/-- C10: for the tag action on a single repository with no additional tags
the plan is exactly the login-if-required commands for the source reference
followed by its pull, and the run contains no docker tag and no docker push
command. -/
theorem tag_single_repo_no_extra_tags
    (credentials : List ContainerRepositoryCredentialConfig)
    (r container buildTag : String) :
    tagPlan credentials [r] [] container buildTag =
      loginCmds credentials (containerPath r container buildTag)
      ++ [⟨("docker"), [("pull"), containerPath r container buildTag]⟩]
    ∧ (tagPlan credentials [r] [] container buildTag).all
        (fun cmd => cmd.args.headD ("") != ("tag")
          && cmd.args.headD ("") != ("push")) = true := by
  have hplan : tagPlan credentials [r] [] container buildTag =
      loginCmds credentials (containerPath r container buildTag)
      ++ [⟨("docker"), [("pull"), containerPath r container buildTag]⟩] := by
    unfold tagPlan
    simp [tagLoop, tagsFanOut]
  refine ⟨hplan, ?_⟩
  rw [hplan, List.all_append,
    loginCmds_no_tag_push credentials (containerPath r container buildTag)]
  rfl

/-! Behaviour without credentials, and configuration errors. -/

/-- With no credentials a loginIfRequired call issues nothing. -/
theorem loginCmds_nil (img : String) : loginCmds [] img = [] := rfl

/-- With no credentials the additional-tags loop never issues a login. -/
theorem tagsFanOut_no_login (source container r : String) :
    ∀ tagsSlice : List String,
    (tagsFanOut [] source container r tagsSlice).all
      (fun cmd => cmd.args.headD ("") != ("login")) = true := by
  intro tagsSlice
  induction tagsSlice with
  | nil => rfl
  | cons t rest ih =>
    simp only [tagsFanOut, loginCmds_nil, List.nil_append, List.all_append,
      List.all_cons, List.all_nil, List.headD_cons, ih]
    decide

/-- With no credentials the push loop never issues a login. -/
theorem pushLoop_no_login (source container buildTag : String)
    (tagsSlice : List String) :
    ∀ (repos : List String) (i : Nat),
    (pushLoop [] source container buildTag tagsSlice i repos).all
      (fun cmd => cmd.args.headD ("") != ("login")) = true := by
  intro repos
  induction repos with
  | nil => intro i; rfl
  | cons r rest ih =>
    intro i
    by_cases h : i > 0
    · simp only [pushLoop, loginCmds_nil, List.nil_append, if_pos h,
        List.all_append, List.all_cons, List.all_nil, List.headD_cons,
        ih, tagsFanOut_no_login]
      decide
    · simp only [pushLoop, loginCmds_nil, List.nil_append, if_neg h,
        List.all_append, List.all_cons, List.all_nil, List.headD_cons,
        ih, tagsFanOut_no_login]
      decide

/-- With no credentials the tag loop never issues a login. -/
theorem tagLoop_no_login (source container buildTag : String)
    (tagsSlice : List String) :
    ∀ (repos : List String) (i : Nat),
    (tagLoop [] source container buildTag tagsSlice i repos).all
      (fun cmd => cmd.args.headD ("") != ("login")) = true := by
  intro repos
  induction repos with
  | nil => intro i; rfl
  | cons r rest ih =>
    intro i
    by_cases h : i > 0
    · simp only [tagLoop, loginCmds_nil, List.nil_append, if_pos h,
        List.all_append, List.all_cons, List.all_nil, List.headD_cons,
        ih, tagsFanOut_no_login]
      decide
    · simp only [tagLoop, loginCmds_nil, List.nil_append, if_neg h,
        List.all_append, List.all_cons, List.all_nil, List.headD_cons,
        ih, tagsFanOut_no_login]
      decide

/-- With no credentials the push planner never issues a login. -/
theorem pushPlan_no_login (repositoriesSlice tagsSlice : List String)
    (container buildTag : String) :
    (pushPlan [] repositoriesSlice tagsSlice container buildTag).all
      (fun cmd => cmd.args.headD ("") != ("login")) = true := by
  simp only [pushPlan]
  exact pushLoop_no_login _ _ _ _ _ _

/-- With no credentials the tag planner never issues a login. -/
theorem tagPlan_no_login (repositoriesSlice tagsSlice : List String)
    (container buildTag : String) :
    (tagPlan [] repositoriesSlice tagsSlice container buildTag).all
      (fun cmd => cmd.args.headD ("") != ("login")) = true := by
  simp only [tagPlan, loginCmds_nil, List.nil_append, List.all_append,
    List.all_cons, List.all_nil, List.headD_cons]
  rw [tagLoop_no_login]
  decide

/-- With no credentials the build planner never issues a login. -/
theorem buildPlan_no_login (repositoriesSlice tagsSlice : List String)
    (container buildTag path dockerfile : String)
    (copySlice argsSlice : List String) (env : String → String) :
    (buildPlan [] repositoriesSlice tagsSlice container buildTag path
        dockerfile copySlice argsSlice env).all
      (fun cmd => cmd.args.headD ("") != ("login")) = true := by
  simp only [buildPlan, loginCmds_nil, List.nil_append, List.all_append,
    List.all_cons, List.all_nil, buildDockerArgs_eq, List.all_map]
  simp [List.all_eq_true]

/-- C8: absent or unparsable credential JSON yields the empty credential set
rather than an error; with it every credential lookup returns none, the
login helper is a no-op, none of the three planners issues a login command,
and a push run with a non-empty repositories string still proceeds to a
plan. -/
theorem malformed_credentials_treated_as_empty
    (img : String) (repositoriesSlice tagsSlice copySlice argsSlice : List String)
    (container buildTag path dockerfile : String) (env : String → String)
    (repositories containerArg tagsArg pathArg dockerfileArg copyArg argsArg
      buildVersion : String) (envRun : String → String) :
    credentialsFromJSON none = [] ∧
    getCredentialsForContainer (credentialsFromJSON none) img = none ∧
    loginIfRequired (credentialsFromJSON none) img = none ∧
    (pushPlan (credentialsFromJSON none) repositoriesSlice tagsSlice container
        buildTag).all (fun cmd => cmd.args.headD ("") != ("login")) = true ∧
    (tagPlan (credentialsFromJSON none) repositoriesSlice tagsSlice container
        buildTag).all (fun cmd => cmd.args.headD ("") != ("login")) = true ∧
    (buildPlan (credentialsFromJSON none) repositoriesSlice tagsSlice container
        buildTag path dockerfile copySlice argsSlice env).all
      (fun cmd => cmd.args.headD ("") != ("login")) = true ∧
    (repositories ≠ ("") →
      mainPlan none ("push") repositories containerArg tagsArg pathArg
          dockerfileArg copyArg argsArg envRun buildVersion =
        Except.ok (pushPlan [] (repositories.splitOn (","))
          (if tagsArg == ("") then [] else tagsArg.splitOn (","))
          containerArg (tidyBuildVersionAsTag buildVersion))) := by
  refine ⟨rfl, rfl, rfl, pushPlan_no_login _ _ _ _, tagPlan_no_login _ _ _ _,
    buildPlan_no_login _ _ _ _ _ _ _ _ _, ?_⟩
  intro h
  have hb : (repositories == ("")) = false := by
    simp [h]
  simp [mainPlan, hb, credentialsFromJSON]

/-- C8 witness at concrete inputs: the hypothesis that the repositories
string is non-empty holds for the string extensions, and the run proceeds
to the push plan. -/
theorem malformed_credentials_witness :
    mainPlan none ("push") ("extensions") ("app") ("dev") (".")
        ("Dockerfile") ("") ("") (fun _ => ("")) ("1.0") =
      Except.ok (pushPlan [] (("extensions").splitOn (","))
        (if ("dev") == ("") then [] else ("dev").splitOn (","))
        ("app") (tidyBuildVersionAsTag ("1.0"))) :=
  (malformed_credentials_treated_as_empty ("x") [] [] [] [] ("") ("") ("")
    ("") (fun _ => ("")) ("extensions") ("app") ("dev") (".") ("Dockerfile")
    ("") ("") ("1.0") (fun _ => (""))).2.2.2.2.2.2 (by decide)

/-- C7: an empty repositories string fails validation with a fatal error
before any engine command exists (the error branch carries no command list),
and an unrecognized action terminates with a fatal error and no engine
command, for every other input. -/
theorem config_errors_fatal
    (parsedCredentials : Option (List ContainerRepositoryCredentialConfig))
    (action container tags path dockerfile copyArg argsArg : String)
    (env : String → String) (buildVersion : String) :
    (mainPlan parsedCredentials action ("") container tags path dockerfile
        copyArg argsArg env buildVersion =
      Except.error repositoriesFatalMsg) ∧
    (∀ repositories : String, repositories ≠ ("") →
      action ≠ ("build") → action ≠ ("push") → action ≠ ("tag") →
      mainPlan parsedCredentials action repositories container tags path
          dockerfile copyArg argsArg env buildVersion =
        Except.error unknownActionFatalMsg) := by
  constructor
  · simp [mainPlan]
  · intro repositories h hb hp ht
    have hrep : (repositories == ("")) = false := by
      simp [h]
    simp only [mainPlan, hrep, Bool.false_eq_true, if_false]

/-- C7 witness at concrete inputs: a non-empty repositories string together
with the unrecognized action deploy terminates with the unknown-action fatal
error and no command. -/
theorem config_errors_fatal_witness :
    mainPlan none ("deploy") ("extensions") ("app") ("") (".") ("Dockerfile")
        ("") ("") (fun _ => ("")) ("1.0") =
      Except.error unknownActionFatalMsg :=
  (config_errors_fatal none ("deploy") ("app") ("") (".") ("Dockerfile")
    ("") ("") (fun _ => ("")) ("1.0")).2 ("extensions")
    (by decide) (by decide) (by decide) (by decide)

end EstafetteDocker
